import Mathlib

/-!
Verification of the credential / token-directory resolution core of the
ble-scale-sync garmin scripts (`setup_garmin.py`, `garmin_upload.py`).

The Python code is shallowly embedded: the process environment is a total
lookup function `String → Option String` (mirroring `os.environ.get`), the
only filesystem facts the code ever queries (existence of the two candidate
token directories as directories) are carried in an explicit `FS` record,
and the external network collaborator (the Garmin session client) is an
oracle parameter.  Python truthiness of optional strings is made explicit.
-/

namespace BleScaleSync

/-- The process environment, as queried by `os.environ.get`. -/
abbrev Env := String → Option String

/-- The filesystem facts the scripts query: the home directory string and
whether each of the two candidate token directories exists as a directory
(`Path.is_dir()` on `<home>/.garmin_renpho_tokens` and `<home>/.garmin_tokens`). -/
structure FS where
  home : String
  legacyIsDir : Bool
  newIsDir : Bool

/-- Python truthiness of an optional string (`if token_dir:`):
`None` and the empty string are falsy. -/
def truthy : Option String → Bool
  | none => false
  | some s => s ≠ ""

/-- Model of `Path(p).expanduser()` for the leading-tilde forms the scripts
rely on; other paths pass through unchanged. -/
def expanduser (home p : String) : String :=
  if p = "~" then home
  else
    match p.data with
    | '~' :: '/' :: rest => home ++ String.mk ('/' :: rest)
    | _ => p

/-- Model of Python `str.strip()`: drop whitespace from both ends. -/
def pyStrip (s : String) : String :=
  String.mk (((s.data.dropWhile Char.isWhitespace).reverse.dropWhile Char.isWhitespace).reverse)

/-- Scanner state for the embedding of `re.sub(r"\$\x7b([^\x7d]+)\x7d", replacer, value)`:
either outside any placeholder, or inside `$\x7b...` accumulating the candidate
variable name (in reverse). -/
inductive ScanState where
  | out : ScanState
  | name : List Char → ScanState

/-- Character-level embedding of `re.sub(r"\$\x7b([^\x7d]+)\x7d", replacer, value)` from
`resolve_env_ref` (`setup_garmin.py` lines 33-49).  Matches are found left to
right; a matched `$\x7bNAME\x7d` with `NAME` set in the environment is replaced by the
variable's value (which is not rescanned), an unset `NAME` leaves the match
verbatim and records a warning naming the variable; unmatched text passes
through.  Returns the output characters and the warning list in emission order. -/
def scan (env : Env) : ScanState → List Char → List Char × List String
  | .out, [] => ([], [])
  | .out, '$' :: '{' :: rest => scan env (.name []) rest
  | .out, c :: rest =>
    let p := scan env .out rest
    (c :: p.1, p.2)
  | .name acc, [] => ('$' :: '{' :: acc.reverse, [])
  | .name acc, '}' :: rest =>
    if acc = [] then
      let p := scan env .out rest
      ('$' :: '{' :: '}' :: p.1, p.2)
    else
      match env (String.mk acc.reverse) with
      | some v =>
        let p := scan env .out rest
        (v.data ++ p.1, p.2)
      | none =>
        let p := scan env .out rest
        ('$' :: '{' :: (acc.reverse ++ '}' :: p.1), String.mk acc.reverse :: p.2)
  | .name acc, c :: rest => scan env (.name (c :: acc)) rest

/-- Runs `re.sub` over a whole string, with the warnings emitted along the way. -/
def substChars (env : Env) (l : List Char) : List Char × List String :=
  scan env .out l

/-- String-level resolution as used on `email`/`password` config values:
the result of `resolve_env_ref` on a string. -/
def substStr (env : Env) (s : String) : String :=
  String.mk (substChars env s.data).1

/-- A dynamically-typed configuration value, as loaded from YAML. -/
inductive ConfigVal where
  | str : String → ConfigVal
  | boolVal : Bool → ConfigVal
  | intVal : Int → ConfigVal
  | nullVal : ConfigVal
  | listVal : List ConfigVal → ConfigVal

/-- Embedding of `resolve_env_ref` (`setup_garmin.py` lines 33-49): strings get
their `$\x7bNAME\x7d` references substituted (second component: the warnings printed
for unset variables, in order); any non-string value is returned unchanged. -/
def resolve_env_ref (env : Env) : ConfigVal → ConfigVal × List String
  | .str s => (.str (String.mk (substChars env s.data).1), (substChars env s.data).2)
  | v => (v, [])

/-- The new default token directory `<home>/.garmin_tokens` (`Path.home() / ".garmin_tokens"`). -/
def newTokenPath (home : String) : String := home ++ "/.garmin_tokens"

/-- The legacy token directory `<home>/.garmin_renpho_tokens`. -/
def legacyTokenPath (home : String) : String := home ++ "/.garmin_renpho_tokens"

/-- Embedding of `get_token_dir` (identical in `setup_garmin.py` lines 20-30 and
`garmin_upload.py` lines 24-34): explicit argument if truthy, else non-blank
`TOKEN_DIR` environment variable, else the legacy directory when it exists and
the new one does not, else the new default. -/
def get_token_dir (env : Env) (fs : FS) (token_dir : Option String) : String :=
  if truthy token_dir then expanduser fs.home (token_dir.getD "")
  else
    let custom := pyStrip ((env "TOKEN_DIR").getD "")
    if custom ≠ "" then expanduser fs.home custom
    else
      if fs.legacyIsDir && !fs.newIsDir then legacyTokenPath fs.home
      else newTokenPath fs.home

/-- The truthiness-based fallback chain `cli_token_dir or user.get("token_dir") or None`
used at `setup_garmin.py` line 173 (the record's `token_dir` is always a string,
defaulted to `""` at extraction time). -/
def orTruthy (a : Option String) (b : String) : Option String :=
  if truthy a then a else if b ≠ "" then some b else none

/-- The token directory actually used for one credential record in batch mode:
`get_token_dir(cli_token_dir or user.get("token_dir") or None)`. -/
def effective_token_dir (env : Env) (fs : FS) (cli : Option String) (record_dir : String) :
    String :=
  get_token_dir env fs (orTruthy cli record_dir)

lemma legacyTokenPath_ne_newTokenPath (home : String) :
    legacyTokenPath home ≠ newTokenPath home := by
  intro h
  have hlen := congrArg String.length h
  simp [legacyTokenPath, newTokenPath, String.length_append] at hlen
  exact absurd hlen (by decide)

/-- The claim's biconditional fails as stated: an explicit override naming the
legacy path returns the legacy path even though an override IS given (and the
legacy directory does not even exist). -/
theorem token_dir_legacy_iff_counterexample :
    ¬ (get_token_dir (fun _ => none) ⟨"/home/u", false, false⟩
         (some "/home/u/.garmin_renpho_tokens") = legacyTokenPath "/home/u"
       ↔ truthy (some "/home/u/.garmin_renpho_tokens") = false
         ∧ pyStrip (((fun _ => none : Env) "TOKEN_DIR").getD "") = ""
         ∧ (⟨"/home/u", false, false⟩ : FS).legacyIsDir = true
         ∧ (⟨"/home/u", false, false⟩ : FS).newIsDir = false) := by
  intro h
  have hres : get_token_dir (fun _ => none) ⟨"/home/u", false, false⟩
      (some "/home/u/.garmin_renpho_tokens") = legacyTokenPath "/home/u" := by
    simp [get_token_dir, truthy, expanduser, legacyTokenPath]
  have := (h.mp hres).1
  simp [truthy] at this

/-- C3 (amended): when no explicit override is given and `TOKEN_DIR` is unset or
blank, resolution returns the legacy path iff the legacy directory exists and the
new default directory does not; in every other such case it returns the new
default path. -/
theorem token_dir_legacy_iff (env : Env) (fs : FS) (o : Option String)
    (hov : truthy o = false)
    (henv : pyStrip ((env "TOKEN_DIR").getD "") = "") :
    (get_token_dir env fs o = legacyTokenPath fs.home
       ↔ fs.legacyIsDir = true ∧ fs.newIsDir = false)
    ∧ (¬ (fs.legacyIsDir = true ∧ fs.newIsDir = false)
       → get_token_dir env fs o = newTokenPath fs.home) := by
  have hres : get_token_dir env fs o =
      if fs.legacyIsDir && !fs.newIsDir then legacyTokenPath fs.home
      else newTokenPath fs.home := by
    unfold get_token_dir
    rw [hov]
    simp [henv]
  have hiff : (fs.legacyIsDir && !fs.newIsDir) = true ↔
      fs.legacyIsDir = true ∧ fs.newIsDir = false := by
    simp [Bool.and_eq_true, Bool.not_eq_true']
  constructor
  · rw [hres]
    by_cases hc : (fs.legacyIsDir && !fs.newIsDir) = true
    · rw [if_pos hc]
      exact ⟨fun _ => hiff.mp hc, fun _ => rfl⟩
    · rw [if_neg hc]
      constructor
      · intro hEq
        exact absurd hEq.symm (legacyTokenPath_ne_newTokenPath fs.home)
      · intro hconj
        exact absurd (hiff.mpr hconj) hc
  · intro hnc
    rw [hres, if_neg (fun hc => hnc (hiff.mp hc))]

theorem token_dir_legacy_iff_witness :
    truthy none = false
    ∧ pyStrip (((fun _ => none : Env) "TOKEN_DIR").getD "") = ""
    ∧ get_token_dir (fun _ => none) ⟨"/h", true, false⟩ none = legacyTokenPath "/h" := by
  refine ⟨rfl, rfl, ?_⟩
  exact (token_dir_legacy_iff (fun _ => none) ⟨"/h", true, false⟩ none rfl rfl).1.mpr ⟨rfl, rfl⟩

/-- C6: the token directory used for a batch record follows the precedence
chain CLI override > record's configured `token_dir` > non-blank `TOKEN_DIR`
environment variable > legacy path under its existence condition, else the
new default path. -/
theorem effective_token_dir_precedence (env : Env) (fs : FS) (cli : Option String)
    (rdir : String) :
    (truthy cli = true → effective_token_dir env fs cli rdir = expanduser fs.home (cli.getD ""))
    ∧ (truthy cli = false → rdir ≠ "" →
        effective_token_dir env fs cli rdir = expanduser fs.home rdir)
    ∧ (truthy cli = false → rdir = "" → pyStrip ((env "TOKEN_DIR").getD "") ≠ "" →
        effective_token_dir env fs cli rdir
          = expanduser fs.home (pyStrip ((env "TOKEN_DIR").getD "")))
    ∧ (truthy cli = false → rdir = "" → pyStrip ((env "TOKEN_DIR").getD "") = "" →
        effective_token_dir env fs cli rdir
          = if fs.legacyIsDir && !fs.newIsDir then legacyTokenPath fs.home
            else newTokenPath fs.home) := by
  refine ⟨?_, ?_, ?_, ?_⟩
  · intro hcli
    have htr : truthy (orTruthy cli rdir) = true := by
      simp [orTruthy, hcli]
    cases cli with
    | none => simp [truthy] at hcli
    | some c =>
      simp only [effective_token_dir, get_token_dir, orTruthy, hcli, if_pos rfl]
      simp [truthy] at hcli
      simp [truthy, hcli]
  · intro hcli hr
    simp only [effective_token_dir, orTruthy, hcli]
    simp only [if_false, Bool.false_eq_true]
    rw [if_pos hr]
    simp [get_token_dir, truthy, hr]
  · intro hcli hr henv
    simp only [effective_token_dir, orTruthy, hcli]
    simp only [if_false, Bool.false_eq_true]
    rw [if_neg (by simp [hr])]
    simp only [get_token_dir, truthy]
    rw [if_neg (by simp), if_pos henv]
  · intro hcli hr henv
    simp only [effective_token_dir, orTruthy, hcli]
    simp only [if_false, Bool.false_eq_true]
    rw [if_neg (by simp [hr])]
    simp [get_token_dir, truthy, henv]

theorem effective_token_dir_precedence_witness :
    effective_token_dir (fun n => if n = "TOKEN_DIR" then some "/envdir" else none)
        ⟨"/h", true, false⟩ (some "/cli") "/rec" = "/cli"
    ∧ effective_token_dir (fun n => if n = "TOKEN_DIR" then some "/envdir" else none)
        ⟨"/h", true, false⟩ none "/rec" = "/rec"
    ∧ effective_token_dir (fun n => if n = "TOKEN_DIR" then some "/envdir" else none)
        ⟨"/h", true, false⟩ none "" = "/envdir"
    ∧ effective_token_dir (fun _ => none) ⟨"/h", true, false⟩ none ""
        = legacyTokenPath "/h" := by
  refine ⟨?_, ?_, ?_, ?_⟩
  · have h := (effective_token_dir_precedence
      (fun n => if n = "TOKEN_DIR" then some "/envdir" else none)
      ⟨"/h", true, false⟩ (some "/cli") "/rec").1 (by decide)
    rw [h]; decide
  · have h := (effective_token_dir_precedence
      (fun n => if n = "TOKEN_DIR" then some "/envdir" else none)
      ⟨"/h", true, false⟩ none "/rec").2.1 rfl (by decide)
    rw [h]; decide
  · have h := (effective_token_dir_precedence
      (fun n => if n = "TOKEN_DIR" then some "/envdir" else none)
      ⟨"/h", true, false⟩ none "").2.2.1 rfl rfl (by decide)
    rw [h]; decide
  · have h := (effective_token_dir_precedence
      (fun _ => none) ⟨"/h", true, false⟩ none "").2.2.2 rfl rfl (by decide)
    rw [h]; decide

/-- A configuration exporter node (`entry` in `get_garmin_users`): every field is
optional, mirroring Python `dict.get`. -/
structure ExporterEntry where
  type : Option String
  email : Option String
  password : Option String
  token_dir : Option String
deriving DecidableEq

/-- A `users:` entry: `user.get("name", "Unknown")` and `user.get("exporters", [])`. -/
structure UserConfig where
  name : Option String
  exporters : List ExporterEntry
deriving DecidableEq

/-- The parsed `config.yaml` root: `config.get("users", [])` and
`config.get("global_exporters", [])`. -/
structure RootConfig where
  users : List UserConfig
  global_exporters : List ExporterEntry

/-- One extracted credential record `{name, email, password, token_dir}`. -/
structure CredentialRecord where
  name : String
  email : String
  password : String
  token_dir : String
deriving DecidableEq

/-- Tests `entry.get("type") == "garmin"`. -/
def isGarmin (e : ExporterEntry) : Bool := e.type == some "garmin"

/-- Reads `user.get("name", "Unknown")`. -/
def userName (u : UserConfig) : String := u.name.getD "Unknown"

/-- The record appended by `get_garmin_users` for user name `uname` and exporter
entry `e`: `email`/`password` pass through `resolve_env_ref`, `token_dir` is
taken verbatim (with default `""`). -/
def mkRecord (env : Env) (uname : String) (e : ExporterEntry) : CredentialRecord :=
  { name := uname
    email := substStr env (e.email.getD "")
    password := substStr env (e.password.getD "")
    token_dir := e.token_dir.getD "" }

/-- The per-user pass of `get_garmin_users` (lines 109-119): walk users in
declaration order, and within each user its exporters in declaration order,
collecting the entries of type "garmin". -/
def perUserRecords (env : Env) (users : List UserConfig) : List CredentialRecord :=
  users.flatMap fun u => (u.exporters.filter isGarmin).map (mkRecord env (userName u))

/-- Embedding of `get_garmin_users` (`setup_garmin.py` lines 102-135): per-user
garmin entries; if none exist anywhere, fall back to the global garmin entries,
each applied to every user. -/
def get_garmin_users (env : Env) (config : RootConfig) : List CredentialRecord :=
  let results := perUserRecords env config.users
  if results.isEmpty then
    (config.global_exporters.filter isGarmin).flatMap fun e =>
      config.users.map fun u => mkRecord env (userName u) e
  else results

lemma sum_map_const_length {α : Type} (L : List α) (k : ℕ) :
    (L.map fun _ => k).sum = L.length * k := by
  induction L with
  | nil => simp
  | cons a t ih => simp [ih, Nat.succ_mul, Nat.add_comm]

/-- C1: with no per-user garmin exporter anywhere, extraction is exactly the
global garmin exporters each applied to every declared user (users in
declaration order within each exporter), records inheriting that exporter's
resolved email/password and verbatim token_dir; one record per
user × matching-exporter pair. -/
theorem global_fallback_applies_to_all_users (env : Env) (cfg : RootConfig)
    (h : ∀ u ∈ cfg.users, ∀ e ∈ u.exporters, isGarmin e = false) :
    get_garmin_users env cfg
      = ((cfg.global_exporters.filter isGarmin).flatMap fun e =>
          cfg.users.map fun u =>
            { name := userName u
              email := substStr env (e.email.getD "")
              password := substStr env (e.password.getD "")
              token_dir := e.token_dir.getD "" })
    ∧ (get_garmin_users env cfg).length
        = (cfg.global_exporters.filter isGarmin).length * cfg.users.length := by
  have hnil : perUserRecords env cfg.users = [] := by
    rw [perUserRecords, List.flatMap_eq_nil_iff]
    intro u hu
    rw [List.map_eq_nil_iff, List.filter_eq_nil_iff]
    intro e he
    simp [h u hu e he]
  have hmain : get_garmin_users env cfg
      = (cfg.global_exporters.filter isGarmin).flatMap fun e =>
          cfg.users.map fun u => mkRecord env (userName u) e := by
    rw [get_garmin_users]
    simp [hnil]
  constructor
  · rw [hmain]; rfl
  · rw [hmain]
    simp only [List.length_flatMap, Function.comp_def, List.length_map]
    exact sum_map_const_length _ _

theorem global_fallback_applies_to_all_users_witness :
    (∀ u ∈ ({ users := [⟨some "alice", []⟩, ⟨some "bob", [⟨some "mqtt", none, none, none⟩]⟩],
              global_exporters := [⟨some "garmin", some "g@x", some "pw", some "/tok"⟩] } :
              RootConfig).users,
      ∀ e ∈ u.exporters, isGarmin e = false)
    ∧ get_garmin_users (fun _ => none)
        { users := [⟨some "alice", []⟩, ⟨some "bob", [⟨some "mqtt", none, none, none⟩]⟩],
          global_exporters := [⟨some "garmin", some "g@x", some "pw", some "/tok"⟩] }
      = [⟨"alice", "g@x", "pw", "/tok"⟩, ⟨"bob", "g@x", "pw", "/tok"⟩] := by
  refine ⟨by decide, ?_⟩
  rw [(global_fallback_applies_to_all_users (fun _ => none) _ (by decide)).1]
  decide

/-- C2: if any user declares a garmin exporter, extraction returns exactly the
per-user records and is entirely independent of `global_exporters`. -/
theorem per_user_disables_global_fallback (env : Env) (cfg : RootConfig)
    (h : ∃ u ∈ cfg.users, ∃ e ∈ u.exporters, isGarmin e = true) :
    get_garmin_users env cfg = perUserRecords env cfg.users
    ∧ ∀ g : List ExporterEntry,
        get_garmin_users env { users := cfg.users, global_exporters := g }
          = perUserRecords env cfg.users := by
  obtain ⟨u, hu, e, he, hg⟩ := h
  have hne : ¬ (perUserRecords env cfg.users).isEmpty = true := by
    rw [List.isEmpty_iff]
    intro hnil
    rw [perUserRecords, List.flatMap_eq_nil_iff] at hnil
    have h1 := hnil u hu
    rw [List.map_eq_nil_iff, List.filter_eq_nil_iff] at h1
    exact h1 e he (by simp [hg])
  constructor
  · rw [get_garmin_users, if_neg hne]
  · intro g
    rw [get_garmin_users, if_neg hne]

theorem per_user_disables_global_fallback_witness :
    (∃ u ∈ ({ users := [⟨some "alice", [⟨some "garmin", some "a@x", some "pw", none⟩]⟩,
                        ⟨some "bob", []⟩],
              global_exporters := [⟨some "garmin", some "g@x", some "gp", some "/g"⟩] } :
              RootConfig).users,
      ∃ e ∈ u.exporters, isGarmin e = true)
    ∧ get_garmin_users (fun _ => none)
        { users := [⟨some "alice", [⟨some "garmin", some "a@x", some "pw", none⟩]⟩,
                    ⟨some "bob", []⟩],
          global_exporters := [⟨some "garmin", some "g@x", some "gp", some "/g"⟩] }
      = [⟨"alice", "a@x", "pw", ""⟩] := by
  have hex : ∃ u ∈ ({ users := [⟨some "alice", [⟨some "garmin", some "a@x", some "pw", none⟩]⟩,
                                ⟨some "bob", []⟩],
                      global_exporters := [⟨some "garmin", some "g@x", some "gp", some "/g"⟩] } :
                      RootConfig).users,
      ∃ e ∈ u.exporters, isGarmin e = true := by
    refine ⟨⟨some "alice", [⟨some "garmin", some "a@x", some "pw", none⟩]⟩, by decide,
            ⟨some "garmin", some "a@x", some "pw", none⟩, by decide, by decide⟩
  refine ⟨hex, ?_⟩
  rw [(per_user_disables_global_fallback (fun _ => none) _ hex).1]
  decide

/-! ### Batch orchestration (`run_from_config`, lines 156-181) -/

/-- The observable outcome of processing one credential record in the batch
loop: which branch fired (missing-credentials error vs. a login attempt), the
token directory that was resolved for the attempt, and whether it succeeded. -/
structure Outcome where
  name : String
  missingCreds : Bool
  loginAttempted : Bool
  tokenDir : Option String
  success : Bool
deriving DecidableEq

/-- One iteration of the `for user in garmin_users` loop (lines 157-176):
strip the credentials; if either is blank, report the missing-credential error
and continue (no login attempt, no token-dir resolution); otherwise resolve the
token directory and attempt authentication through the external login
collaborator `login` (an oracle `email → password → token_dir → success`). -/
def process_user (env : Env) (fs : FS) (login : String → String → String → Bool)
    (cli : Option String) (r : CredentialRecord) : Outcome :=
  let email := pyStrip r.email
  let password := pyStrip r.password
  if email = "" ∨ password = "" then
    { name := r.name, missingCreds := true, loginAttempted := false,
      tokenDir := none, success := false }
  else
    let td := effective_token_dir env fs cli r.token_dir
    { name := r.name, missingCreds := false, loginAttempted := true,
      tokenDir := some td, success := login email password td }

/-- The full sequence of per-user outcomes of the batch loop. -/
def run_from_config_outcomes (env : Env) (fs : FS) (login : String → String → String → Bool)
    (cli : Option String) (records : List CredentialRecord) : List Outcome :=
  records.map (process_user env fs login cli)

/-- The `has_error` aggregate flag (lines 156, 170, 176). -/
def has_error (outcomes : List Outcome) : Bool :=
  outcomes.any fun o => !o.success

/-- The exit disposition decided after the loop (lines 178-179): 1 when any
user failed, else 0. -/
def run_from_config_exit (env : Env) (fs : FS) (login : String → String → String → Bool)
    (cli : Option String) (records : List CredentialRecord) : Nat :=
  if has_error (run_from_config_outcomes env fs login cli records) then 1 else 0

/-- Whether the final "All done!" success message is printed (line 181):
only when the loop finished with no error. -/
def success_message_printed (env : Env) (fs : FS) (login : String → String → String → Bool)
    (cli : Option String) (records : List CredentialRecord) : Bool :=
  !(has_error (run_from_config_outcomes env fs login cli records))

/-! ### Legacy mode (`run_legacy`, lines 184-200) -/

/-- The observable result of `run_legacy`: whether the fatal "must be set"
configuration error fired, which credential pair (if any) was used for the
single authentication attempt, and the exit code. -/
structure LegacyResult where
  fatalConfigError : Bool
  attempted : Option (String × String)
  exitCode : Nat
deriving DecidableEq

/-- Embedding of `run_legacy`: read `GARMIN_EMAIL`/`GARMIN_PASSWORD` (stripped,
default `""`); if either is blank, fail fatally with exit 1 before any
authentication; otherwise resolve the token directory and attempt exactly one
authentication, exiting 1 on failure and 0 (with the success message) on
success. -/
def run_legacy (env : Env) (fs : FS) (login : String → String → String → Bool)
    (cli : Option String) : LegacyResult :=
  let email := pyStrip ((env "GARMIN_EMAIL").getD "")
  let password := pyStrip ((env "GARMIN_PASSWORD").getD "")
  if email = "" ∨ password = "" then
    { fatalConfigError := true, attempted := none, exitCode := 1 }
  else
    let td := get_token_dir env fs cli
    if login email password td then
      { fatalConfigError := false, attempted := some (email, password), exitCode := 0 }
    else
      { fatalConfigError := false, attempted := some (email, password), exitCode := 1 }

/-! ### Upload adapter (`garmin_upload.py`, `main`, lines 92-110) -/

/-- The JSON object printed to stdout by the upload adapter: either
`{"success": true, "data": ...}` or `{"success": false, "error": ...}`. -/
inductive UploadOut (δ : Type) where
  | success : δ → UploadOut δ
  | failure : String → UploadOut δ
deriving DecidableEq

/-- The observable result of the upload adapter's `main`: the structured stdout
object, the exit code, and whether the upload path (client construction, login,
upload) was entered at all. -/
structure MainResult (δ : Type) where
  stdout : UploadOut δ
  exitCode : Nat
  uploadAttempted : Bool
deriving DecidableEq

/-- Embedding of `main` in `garmin_upload.py`: `json.loads` on stdin is the
external parser `parse` (its exception message is the `Except.error` payload);
the whole `upload` call (client construction + login + `add_body_composition`)
is the external collaborator `uploadFn`, entered only when parsing succeeded.
A parse error prints `{"success": false, "error": "Invalid JSON input: <e>"}`
and exits 1 with no upload attempt; otherwise the upload's result or error is
printed and the exit code is 0 or 1 accordingly. -/
def upload_main {π δ : Type} (parse : String → Except String π)
    (uploadFn : π → Except String δ) (stdin : String) : MainResult δ :=
  match parse stdin with
  | .error e =>
    { stdout := .failure ("Invalid JSON input: " ++ e), exitCode := 1, uploadAttempted := false }
  | .ok payload =>
    match uploadFn payload with
    | .ok d => { stdout := .success d, exitCode := 0, uploadAttempted := true }
    | .error e => { stdout := .failure e, exitCode := 1, uploadAttempted := true }

/-! ### Decomposition of strings into literal runs and placeholders, used to
state what `resolve_env_ref` does to every well-formed input (C7). -/

/-- A piece of an input string: a literal run (no `$`), or a placeholder
`$\x7bn\x7d` whose name is nonempty and brace-free. -/
inductive Piece where
  | lit : List Char → Piece
  | ph : List Char → Piece

/-- The characters a piece contributes to the input string. -/
def renderPiece : Piece → List Char
  | .lit s => s
  | .ph n => '$' :: '{' :: (n ++ ['}'])

/-- The characters a piece contributes to the output: literals pass through,
a placeholder becomes the variable's value when set and stays verbatim when
unset. -/
def outPiece (env : Env) : Piece → List Char
  | .lit s => s
  | .ph n =>
    match env (String.mk n) with
    | some v => v.data
    | none => '$' :: '{' :: (n ++ ['}'])

/-- The warnings a piece contributes: exactly the unset placeholder names. -/
def warnPiece (env : Env) : Piece → List String
  | .lit _ => []
  | .ph n =>
    match env (String.mk n) with
    | some _ => []
    | none => [String.mk n]

/-- Well-formedness of a piece: literal runs contain no `$`; placeholder names
are nonempty and contain no closing brace (the `[^\x7d]+` group). -/
def ValidPiece : Piece → Prop
  | .lit s => '$' ∉ s
  | .ph n => n ≠ [] ∧ '}' ∉ n

instance : DecidablePred ValidPiece := fun p => by
  cases p with
  | lit s => exact inferInstanceAs (Decidable ('$' ∉ s))
  | ph n => exact inferInstanceAs (Decidable (_ ∧ _))

lemma scan_out_lit (env : Env) (s : List Char) : ∀ t, '$' ∉ s →
    scan env .out (s ++ t) = (s ++ (scan env .out t).1, (scan env .out t).2) := by
  induction s with
  | nil => intro t _; simp
  | cons c cs ih =>
    intro t hs
    have hc : c ≠ '$' := fun h => hs (by simp [h])
    have hcs : '$' ∉ cs := fun h => hs (List.mem_cons_of_mem _ h)
    rw [List.cons_append, scan.eq_3 env c (cs ++ t) (fun _ h1 _ => hc h1), ih t hcs]
    rfl

lemma scan_name_close (env : Env) (n : List Char) : ∀ acc t, '}' ∉ n →
    scan env (.name acc) (n ++ '}' :: t) =
      (if acc.reverse ++ n = [] then
        ('$' :: '{' :: '}' :: (scan env .out t).1, (scan env .out t).2)
      else
        match env (String.mk (acc.reverse ++ n)) with
        | some v => (v.data ++ (scan env .out t).1, (scan env .out t).2)
        | none => ('$' :: '{' :: ((acc.reverse ++ n) ++ '}' :: (scan env .out t).1),
                   String.mk (acc.reverse ++ n) :: (scan env .out t).2)) := by
  induction n with
  | nil =>
    intro acc t _
    rw [List.nil_append, scan.eq_5]
    simp only [List.append_nil]
    by_cases ha : acc = []
    · rw [if_pos ha, if_pos (by simp [ha])]
    · rw [if_neg ha, if_neg (by simp [List.reverse_eq_nil_iff, ha])]
  | cons c n' ih =>
    intro acc t hn
    have hc : c ≠ '}' := fun h => hn (by simp [h])
    have hn' : '}' ∉ n' := fun h => hn (List.mem_cons_of_mem _ h)
    rw [List.cons_append, scan.eq_6 env acc c _ (fun h => hc h), ih (c :: acc) t hn']
    have heq : (c :: acc).reverse ++ n' = acc.reverse ++ (c :: n') := by simp
    rw [heq]

lemma scan_pieces (env : Env) (ps : List Piece) : (∀ p ∈ ps, ValidPiece p) →
    scan env .out (ps.flatMap renderPiece)
      = (ps.flatMap (outPiece env), ps.flatMap (warnPiece env)) := by
  induction ps with
  | nil => intro _; rfl
  | cons p ps ih =>
    intro hv
    have hp := hv p (List.mem_cons_self p ps)
    have hps : ∀ q ∈ ps, ValidPiece q := fun q hq => hv q (List.mem_cons_of_mem p hq)
    rw [List.flatMap_cons, List.flatMap_cons, List.flatMap_cons]
    cases p with
    | lit s =>
      have hs : '$' ∉ s := hp
      simp only [renderPiece, outPiece, warnPiece]
      rw [scan_out_lit env s _ hs, ih hps]
      rfl
    | ph n =>
      obtain ⟨hne, hnb⟩ := hp
      simp only [renderPiece, outPiece, warnPiece]
      have hshape : ('$' :: '{' :: (n ++ ['}'])) ++ ps.flatMap renderPiece
          = '$' :: '{' :: (n ++ '}' :: ps.flatMap renderPiece) := by simp
      rw [hshape, scan.eq_2, scan_name_close env n [] _ hnb]
      simp only [List.reverse_nil, List.nil_append]
      rw [if_neg hne, ih hps]
      cases henv : env (String.mk n) with
      | some v => rfl
      | none => simp

/-- C7: `resolve_env_ref` never fails: non-string values pass through unchanged
with no warnings; and on any string decomposed into `$`-free literal runs and
well-formed placeholders, each placeholder is substituted independently in
left-to-right order — set variables are replaced by their values (not
rescanned), unset ones stay verbatim and produce a warning naming the
variable, in order. -/
theorem env_ref_resolution_total (env : Env) :
    (∀ v : ConfigVal, (∀ s, v ≠ .str s) → resolve_env_ref env v = (v, []))
    ∧ (∀ ps : List Piece, (∀ p ∈ ps, ValidPiece p) →
        resolve_env_ref env (.str (String.mk (ps.flatMap renderPiece)))
          = (.str (String.mk (ps.flatMap (outPiece env))), ps.flatMap (warnPiece env))) := by
  constructor
  · intro v hv
    cases v with
    | str s => exact absurd rfl (hv s)
    | boolVal b => rfl
    | intVal n => rfl
    | nullVal => rfl
    | listVal l => rfl
  · intro ps hv
    show (ConfigVal.str (String.mk (scan env .out (ps.flatMap renderPiece)).1),
          (scan env .out (ps.flatMap renderPiece)).2) = _
    rw [scan_pieces env ps hv]

theorem env_ref_resolution_total_witness :
    resolve_env_ref (fun n => if n = "E" then some "foo" else none) (.boolVal true)
      = (.boolVal true, [])
    ∧ resolve_env_ref (fun n => if n = "E" then some "foo" else none) (.str "x=${E};${M}")
      = (.str "x=foo;${M}", ["M"]) := by
  constructor
  · exact (env_ref_resolution_total _).1 (.boolVal true) (fun s h => ConfigVal.noConfusion h)
  · have h := (env_ref_resolution_total (fun n => if n = "E" then some "foo" else none)).2
      [.lit ['x', '='], .ph ['E'], .lit [';'], .ph ['M']] (by decide)
    have h1 : String.mk (([Piece.lit ['x', '='], .ph ['E'], .lit [';'],
        .ph ['M']]).flatMap renderPiece) = "x=${E};${M}" := by decide
    have h2 : String.mk (([Piece.lit ['x', '='], .ph ['E'], .lit [';'],
        .ph ['M']]).flatMap (outPiece (fun n => if n = "E" then some "foo" else none)))
        = "x=foo;${M}" := by decide
    have h3 : ([Piece.lit ['x', '='], .ph ['E'], .lit [';'],
        .ph ['M']]).flatMap (warnPiece (fun n => if n = "E" then some "foo" else none))
        = ["M"] := by decide
    rw [h1, h2, h3] at h
    exact h

lemma has_error_iff (outcomes : List Outcome) :
    has_error outcomes = true ↔ ∃ o ∈ outcomes, o.success = false := by
  rw [has_error, List.any_eq_true]
  constructor
  · rintro ⟨o, ho, hp⟩
    exact ⟨o, ho, by simpa using hp⟩
  · rintro ⟨o, ho, hp⟩
    exact ⟨o, ho, by simp [hp]⟩

lemma process_user_name (env : Env) (fs : FS) (login : String → String → String → Bool)
    (cli : Option String) (r : CredentialRecord) :
    (process_user env fs login cli r).name = r.name := by
  rw [process_user]
  dsimp only
  split <;> rfl

/-- C4: the batch loop attempts and reports every extracted record (one outcome
per record, names in order), and only the aggregate decides the exit
disposition: exit code 1 exactly when some user failed, the success message
exactly when every attempted user succeeded. -/
theorem batch_attempts_all_and_aggregates (env : Env) (fs : FS)
    (login : String → String → String → Bool) (cli : Option String)
    (records : List CredentialRecord) :
    (run_from_config_outcomes env fs login cli records).length = records.length
    ∧ (run_from_config_outcomes env fs login cli records).map (fun o => o.name)
        = records.map (fun r => r.name)
    ∧ (run_from_config_exit env fs login cli records = 1
        ↔ ∃ o ∈ run_from_config_outcomes env fs login cli records, o.success = false)
    ∧ (run_from_config_exit env fs login cli records = 0
        ↔ success_message_printed env fs login cli records = true)
    ∧ (success_message_printed env fs login cli records = true
        ↔ ∀ o ∈ run_from_config_outcomes env fs login cli records, o.success = true) := by
  refine ⟨by simp [run_from_config_outcomes], ?_, ?_, ?_, ?_⟩
  · rw [run_from_config_outcomes, List.map_map]
    exact List.map_congr_left fun r _ => process_user_name env fs login cli r
  · rw [run_from_config_exit]
    cases he : has_error (run_from_config_outcomes env fs login cli records) with
    | true =>
      simp [(has_error_iff _).mp he]
    | false =>
      rw [if_neg (by decide)]
      constructor
      · intro h
        exact absurd h (by decide)
      · intro hex
        exact absurd ((has_error_iff _).mpr hex) (by simp [he])
  · rw [run_from_config_exit, success_message_printed]
    cases he : has_error (run_from_config_outcomes env fs login cli records) with
    | true => simp [he]
    | false => simp [he]
  · rw [success_message_printed]
    cases he : has_error (run_from_config_outcomes env fs login cli records) with
    | true =>
      simp only [he, Bool.not_true, Bool.false_eq_true, false_iff]
      intro hall
      obtain ⟨o, ho, hs⟩ := (has_error_iff _).mp he
      rw [hall o ho] at hs
      exact Bool.noConfusion hs
    | false =>
      simp only [he, Bool.not_false, true_iff]
      intro o ho
      cases hs : o.success with
      | true => rfl
      | false =>
        exact absurd ((has_error_iff _).mpr ⟨o, ho, hs⟩) (by simp [he])

theorem batch_attempts_all_and_aggregates_witness :
    run_from_config_exit (fun _ => none) ⟨"/h", false, false⟩
        (fun e _ _ => e ≠ "bad@x") none
        [⟨"alice", "ok@x", "pw", "/a"⟩, ⟨"bob", "bad@x", "pw", "/b"⟩] = 1
    ∧ (run_from_config_outcomes (fun _ => none) ⟨"/h", false, false⟩
        (fun e _ _ => e ≠ "bad@x") none
        [⟨"alice", "ok@x", "pw", "/a"⟩, ⟨"bob", "bad@x", "pw", "/b"⟩]).length = 2
    ∧ (run_from_config_outcomes (fun _ => none) ⟨"/h", false, false⟩
        (fun e _ _ => e ≠ "bad@x") none
        [⟨"alice", "ok@x", "pw", "/a"⟩, ⟨"bob", "bad@x", "pw", "/b"⟩]).map
          (fun o => o.name) = ["alice", "bob"] := by
  have h := batch_attempts_all_and_aggregates (fun _ => none) ⟨"/h", false, false⟩
    (fun e _ _ => e ≠ "bad@x") none
    [⟨"alice", "ok@x", "pw", "/a"⟩, ⟨"bob", "bad@x", "pw", "/b"⟩]
  refine ⟨?_, ?_, ?_⟩
  · refine h.2.2.1.mpr ⟨process_user (fun _ => none) ⟨"/h", false, false⟩
      (fun e _ _ => e ≠ "bad@x") none ⟨"bob", "bad@x", "pw", "/b"⟩, ?_, by decide⟩
    exact List.mem_map_of_mem _ (by decide)
  · exact h.1
  · exact h.2.1.trans (by decide)

/-- C5: a record whose stripped email or password is blank is treated as a
resolution failure: the missing-credentials error fires with no login attempt
and no token-directory resolution for that record, the surrounding records are
still processed, and the batch exit code is 1. -/
theorem blank_credentials_reported_not_attempted (env : Env) (fs : FS)
    (login : String → String → String → Bool) (cli : Option String)
    (pre post : List CredentialRecord) (r : CredentialRecord)
    (hblank : pyStrip r.email = "" ∨ pyStrip r.password = "") :
    process_user env fs login cli r
      = { name := r.name, missingCreds := true, loginAttempted := false,
          tokenDir := none, success := false }
    ∧ run_from_config_outcomes env fs login cli (pre ++ r :: post)
      = run_from_config_outcomes env fs login cli pre
        ++ process_user env fs login cli r
          :: run_from_config_outcomes env fs login cli post
    ∧ run_from_config_exit env fs login cli (pre ++ r :: post) = 1 := by
  have hpu : process_user env fs login cli r
      = { name := r.name, missingCreds := true, loginAttempted := false,
          tokenDir := none, success := false } := by
    rw [process_user]
    dsimp only
    rw [if_pos hblank]
  refine ⟨hpu, by simp [run_from_config_outcomes], ?_⟩
  have hmem : process_user env fs login cli r
      ∈ run_from_config_outcomes env fs login cli (pre ++ r :: post) := by
    rw [run_from_config_outcomes]
    exact List.mem_map_of_mem _ (by simp)
  rw [run_from_config_exit, if_pos ((has_error_iff _).mpr ⟨_, hmem, by rw [hpu]⟩)]

theorem blank_credentials_reported_not_attempted_witness :
    (pyStrip "  " = "" ∨ pyStrip "pw" = "")
    ∧ process_user (fun _ => none) ⟨"/h", false, false⟩ (fun _ _ _ => true) none
        ⟨"carol", "  ", "pw", ""⟩
      = { name := "carol", missingCreds := true, loginAttempted := false,
          tokenDir := none, success := false }
    ∧ run_from_config_exit (fun _ => none) ⟨"/h", false, false⟩ (fun _ _ _ => true) none
        [⟨"alice", "a@x", "p", ""⟩, ⟨"carol", "  ", "pw", ""⟩, ⟨"bob", "b@x", "p", ""⟩]
      = 1 := by
  have h := blank_credentials_reported_not_attempted (fun _ => none) ⟨"/h", false, false⟩
    (fun _ _ _ => true) none [⟨"alice", "a@x", "p", ""⟩] [⟨"bob", "b@x", "p", ""⟩]
    ⟨"carol", "  ", "pw", ""⟩ (Or.inl (by decide))
  exact ⟨Or.inl (by decide), h.1, h.2.2⟩

/-- C8: legacy mode fails fatally (exit 1, no authentication attempt) exactly
when the stripped `GARMIN_EMAIL` or `GARMIN_PASSWORD` is blank; otherwise it
attempts exactly one authentication with that stripped pair, exiting 0 on
success and 1 on failure. -/
theorem legacy_env_credentials (env : Env) (fs : FS)
    (login : String → String → String → Bool) (cli : Option String) :
    ((pyStrip ((env "GARMIN_EMAIL").getD "") = ""
        ∨ pyStrip ((env "GARMIN_PASSWORD").getD "") = "")
      → run_legacy env fs login cli
          = { fatalConfigError := true, attempted := none, exitCode := 1 })
    ∧ (pyStrip ((env "GARMIN_EMAIL").getD "") ≠ ""
      → pyStrip ((env "GARMIN_PASSWORD").getD "") ≠ ""
      → run_legacy env fs login cli
          = { fatalConfigError := false
              attempted := some (pyStrip ((env "GARMIN_EMAIL").getD ""),
                                 pyStrip ((env "GARMIN_PASSWORD").getD ""))
              exitCode := if login (pyStrip ((env "GARMIN_EMAIL").getD ""))
                  (pyStrip ((env "GARMIN_PASSWORD").getD ""))
                  (get_token_dir env fs cli) then 0 else 1 }) := by
  constructor
  · intro hb
    rw [run_legacy]
    dsimp only
    rw [if_pos hb]
  · intro he hp
    rw [run_legacy]
    dsimp only
    rw [if_neg (by tauto)]
    cases hlog : login (pyStrip ((env "GARMIN_EMAIL").getD ""))
        (pyStrip ((env "GARMIN_PASSWORD").getD "")) (get_token_dir env fs cli) with
    | true => rfl
    | false => rfl

theorem legacy_env_credentials_witness :
    run_legacy (fun _ => none) ⟨"/h", false, false⟩ (fun _ _ _ => true) none
      = { fatalConfigError := true, attempted := none, exitCode := 1 }
    ∧ run_legacy
        (fun n => if n = "GARMIN_EMAIL" then some "e@x"
                  else if n = "GARMIN_PASSWORD" then some "pw" else none)
        ⟨"/h", false, false⟩ (fun _ _ _ => true) none
      = { fatalConfigError := false, attempted := some ("e@x", "pw"), exitCode := 0 } := by
  constructor
  · exact (legacy_env_credentials (fun _ => none) ⟨"/h", false, false⟩
      (fun _ _ _ => true) none).1 (Or.inl (by decide))
  · have h := (legacy_env_credentials
      (fun n => if n = "GARMIN_EMAIL" then some "e@x"
                else if n = "GARMIN_PASSWORD" then some "pw" else none)
      ⟨"/h", false, false⟩ (fun _ _ _ => true) none).2 (by decide) (by decide)
    rw [h]
    decide

/-- C9: when stdin does not parse as JSON, the upload adapter prints the
structured failure object naming the parse error, exits 1, and never enters
the upload path — the result does not even depend on the upload collaborator. -/
theorem invalid_json_structured_failure {π δ : Type} (parse : String → Except String π)
    (uploadFn uploadFn2 : π → Except String δ) (stdin e : String)
    (h : parse stdin = .error e) :
    upload_main parse uploadFn stdin
      = { stdout := .failure ("Invalid JSON input: " ++ e), exitCode := 1,
          uploadAttempted := false }
    ∧ upload_main parse uploadFn stdin = upload_main parse uploadFn2 stdin := by
  constructor <;> simp [upload_main, h]

theorem invalid_json_structured_failure_witness :
    (fun _ => (Except.error "bad" : Except String Unit)) "not json" = Except.error "bad"
    ∧ upload_main (fun _ => (Except.error "bad" : Except String Unit))
        (fun _ => (Except.ok () : Except String Unit)) "not json"
      = { stdout := .failure "Invalid JSON input: bad", exitCode := 1,
          uploadAttempted := false } := by
  refine ⟨rfl, ?_⟩
  have h := (invalid_json_structured_failure (fun _ => (Except.error "bad" : Except String Unit))
    (fun _ => (Except.ok () : Except String Unit)) (fun _ => Except.ok ())
    "not json" "bad" rfl).1
  rw [h]
  rfl

lemma perUserRecords_nil_iff (env : Env) (users : List UserConfig) :
    perUserRecords env users = [] ↔ ∀ u ∈ users, ∀ e ∈ u.exporters, isGarmin e = false := by
  rw [perUserRecords, List.flatMap_eq_nil_iff]
  constructor
  · intro h u hu e he
    have h1 := h u hu
    rw [List.map_eq_nil_iff, List.filter_eq_nil_iff] at h1
    have h2 := h1 e he
    simpa using h2
  · intro h u hu
    rw [List.map_eq_nil_iff, List.filter_eq_nil_iff]
    intro e he
    simp [h u hu e he]

/-- C10: the `token_dir` of every extracted record bypasses env-ref resolution:
the extracted token_dir sequence is the same under any two environments, each
record's token_dir is the verbatim `token_dir` of some garmin exporter entry of
the configuration (while its email and password went through resolution), and
for a record that reaches authentication, exactly that verbatim string is fed
to the token-directory resolver. -/
theorem token_dir_carried_verbatim (env env2 : Env) (cfg : RootConfig) :
    ((get_garmin_users env cfg).map (fun r => r.token_dir)
      = (get_garmin_users env2 cfg).map (fun r => r.token_dir))
    ∧ (∀ r ∈ get_garmin_users env cfg,
        ∃ e : ExporterEntry, isGarmin e = true
          ∧ ((∃ u ∈ cfg.users, e ∈ u.exporters) ∨ e ∈ cfg.global_exporters)
          ∧ r.token_dir = e.token_dir.getD ""
          ∧ r.email = substStr env (e.email.getD "")
          ∧ r.password = substStr env (e.password.getD ""))
    ∧ (∀ (fs : FS) (login : String → String → String → Bool) (cli : Option String)
        (r : CredentialRecord), pyStrip r.email ≠ "" → pyStrip r.password ≠ "" →
        (process_user env fs login cli r).tokenDir
          = some (get_token_dir env fs (orTruthy cli r.token_dir))) := by
  refine ⟨?_, ?_, ?_⟩
  · by_cases hall : ∀ u ∈ cfg.users, ∀ e ∈ u.exporters, isGarmin e = false
    · have h1 := (perUserRecords_nil_iff env cfg.users).mpr hall
      have h2 := (perUserRecords_nil_iff env2 cfg.users).mpr hall
      simp [get_garmin_users, h1, h2, List.map_flatMap, List.map_map, mkRecord,
        Function.comp_def]
    · have hne1 : ¬ (perUserRecords env cfg.users).isEmpty = true := by
        rw [List.isEmpty_iff]
        exact fun hnl => hall ((perUserRecords_nil_iff env cfg.users).mp hnl)
      have hne2 : ¬ (perUserRecords env2 cfg.users).isEmpty = true := by
        rw [List.isEmpty_iff]
        exact fun hnl => hall ((perUserRecords_nil_iff env2 cfg.users).mp hnl)
      simp only [get_garmin_users]
      rw [if_neg hne1, if_neg hne2]
      simp [perUserRecords, List.map_flatMap, List.map_map, mkRecord, Function.comp_def]
  · intro r hr
    simp only [get_garmin_users] at hr
    by_cases hemp : (perUserRecords env cfg.users).isEmpty = true
    · rw [if_pos hemp] at hr
      obtain ⟨e, hef, hrm⟩ := List.mem_flatMap.mp hr
      obtain ⟨heg, hgar⟩ := List.mem_filter.mp hef
      obtain ⟨u, hu, hru⟩ := List.mem_map.mp hrm
      subst hru
      exact ⟨e, hgar, Or.inr heg, rfl, rfl, rfl⟩
    · rw [if_neg hemp, perUserRecords] at hr
      obtain ⟨u, hu, hm⟩ := List.mem_flatMap.mp hr
      obtain ⟨e, hef, hre⟩ := List.mem_map.mp hm
      obtain ⟨hee, hgar⟩ := List.mem_filter.mp hef
      subst hre
      exact ⟨e, hgar, Or.inl ⟨u, hu, hee⟩, rfl, rfl, rfl⟩
  · intro fs login cli r he hp
    rw [process_user]
    dsimp only
    rw [if_neg (by tauto)]
    rfl

theorem token_dir_carried_verbatim_witness :
    ((get_garmin_users (fun n => if n = "TOKDIR" then some "/resolved" else none)
        { users := [⟨some "alice",
            [⟨some "garmin", some "a@x", some "pw", some "${TOKDIR}"⟩]⟩],
          global_exporters := [] }).map (fun r => r.token_dir)
      = (get_garmin_users (fun _ => none)
          { users := [⟨some "alice",
              [⟨some "garmin", some "a@x", some "pw", some "${TOKDIR}"⟩]⟩],
            global_exporters := [] }).map (fun r => r.token_dir))
    ∧ (get_garmin_users (fun n => if n = "TOKDIR" then some "/resolved" else none)
        { users := [⟨some "alice",
            [⟨some "garmin", some "a@x", some "pw", some "${TOKDIR}"⟩]⟩],
          global_exporters := [] }).map (fun r => r.token_dir) = ["${TOKDIR}"]
    ∧ substStr (fun n => if n = "TOKDIR" then some "/resolved" else none) "${TOKDIR}"
        = "/resolved"
    ∧ (process_user (fun n => if n = "TOKDIR" then some "/resolved" else none)
        ⟨"/h", false, false⟩ (fun _ _ _ => true) none
        ⟨"alice", "a@x", "pw", "${TOKDIR}"⟩).tokenDir
      = some (get_token_dir (fun n => if n = "TOKDIR" then some "/resolved" else none)
          ⟨"/h", false, false⟩ (orTruthy none "${TOKDIR}")) := by
  have h := token_dir_carried_verbatim
    (fun n => if n = "TOKDIR" then some "/resolved" else none) (fun _ => none)
    { users := [⟨some "alice", [⟨some "garmin", some "a@x", some "pw", some "${TOKDIR}"⟩]⟩],
      global_exporters := [] }
  refine ⟨h.1, by decide, by decide, ?_⟩
  exact h.2.2 ⟨"/h", false, false⟩ (fun _ _ _ => true) none
    ⟨"alice", "a@x", "pw", "${TOKDIR}"⟩ (by decide) (by decide)

end BleScaleSync
